import Mathlib

/-
Verification of the evs component-rendering engine.

The development shallowly embeds the expression evaluator of
src/internal/auto-dom/element.js (processLisp, parseProps, addToRefId,
createElement, renderWith, defineElement, Fragment) together with the hooks
subsystem of src/internal/auto-dom/hooks.js (useModel, hasModel, forceUpdate,
findParentVnode, getScopedModels).

JavaScript values are modelled by the inductive type Val.  The component
functions and shouldUpdate predicates appearing in the checked scenarios are
defunctionalized into the enumerations CompId and Pred.  Global mutable stores
(the render-context config store, the dispatcher store, the tree-value store,
the scoped model registries) become fields of an explicit state record St that
is threaded through evaluation.  Component invocations are additionally logged
in the state so that memoization (skipping an invocation) is observable.
Recursion of the evaluator is not structural in the source, so the embedding
uses a fuel parameter; running out of fuel is a distinct error that never
occurs in the finite scenarios below.

Modules of the repository that the evaluator imports but that are not present
in the source tree (vnode.js, constants.js, render-context.js, parts of
utils.js) are modelled from the spec; each such definition carries a doc
comment saying so.
-/

namespace Evs

/-- Defunctionalized shouldUpdate predicates used by the scenarios:
the utils.js alwaysTrue default, the spec example (a, b) => a.x === b.x,
and its negation (a, b) => a.x !== b.x. -/
inductive Pred where
  | alwaysTrue
  | xEq
  | xNeq

/-- Defunctionalized component functions used by the scenarios. -/
inductive CompId where
  | fragment
  | c1test
  | wrapper
  | inner
  | fragComp

/-- A callable lisp head: either a leaf-constructor factory produced by
defineElement (tagged with valueTypes.domComponent) or a plain component
function. -/
inductive Fn where
  | dom (tag : String)
  | comp (c : CompId)

/-- The universe of JavaScript values handled by the evaluator: primitives,
null and undefined, arrays, plain objects, callables, shouldUpdate
predicates, and realized vnodes.  A vnode carries its selector, an optional
text payload (text and comment nodes), its canonical props, its key, and the
refId assigned by the props parser.  Children of a composite vnode live in
its props under the children key, as in the source. -/
inductive Val where
  | str (s : String)
  | num (n : Int)
  | bool (b : Bool)
  | null
  | undef
  | arr (xs : List Val)
  | obj (props : List (String × Val))
  | fnv (f : Fn)
  | predv (p : Pred)
  | vnode (sel : Option String) (txt : Option String)
      (props : List (String × Val)) (key : Option Val) (refId : Option String)

/-- Association-list lookup, modelling reads from JS objects and Maps keyed
by strings. -/
def alookup {α : Type} : List (String × α) → String → Option α
  | [], _ => none
  | (k1, v1) :: rest, k => if k1 == k then some v1 else alookup rest k

/-- Association-list update: replaces the value in place when the key is
present (JS assignment and Map.set keep the original entry position),
otherwise appends. -/
def aset {α : Type} : List (String × α) → String → α → List (String × α)
  | [], k, v => [(k, v)]
  | (k1, v1) :: rest, k, v =>
      if k1 == k then (k1, v) :: rest else (k1, v1) :: aset rest k v

/-- Reading a property off a JS object: a missing property is undefined. -/
def getProp (props : List (String × Val)) (k : String) : Val :=
  match alookup props k with
  | some v => v
  | none => Val.undef

/-- JS strict equality on the primitive values compared by the scenarios.
Reference equality of objects, arrays and functions is not representable in
the shallow embedding and is conservatively modelled as false. -/
def jsStrictEq : Val → Val → Bool
  | .str a, .str b => a == b
  | .num a, .num b => a == b
  | .bool a, .bool b => a == b
  | .null, .null => true
  | .undef, .undef => true
  | _, _ => false

/-- JS template-literal stringification of the values that reach string
interpolation in the evaluator (path segments, seed paths, text nodes). -/
def jsTemplateStr : Val → String
  | .str s => s
  | .num n => toString n
  | .bool b => if b then "true" else "false"
  | .null => "null"
  | .undef => "undefined"
  | .arr _ => "[array]"
  | .obj _ => "[object Object]"
  | .fnv _ => "[function]"
  | .predv _ => "[function]"
  | .vnode _ _ _ _ _ => "[object Object]"

/-- Errors surfaced synchronously by the engine, plus fuel exhaustion of the
embedding. -/
inductive Err where
  | outOfFuel
  | invalidKey (msg : String)
  | invalidSeed (msg : String)
  | invalidVnodeValue
  | typeError (msg : String)

/-- Modelled from the spec: constants.js is not in the source tree.  The
reserved prop names of section 3 of the spec (children, key, shouldUpdate and
the internal bookkeeping keys refId and previousRefId); applyProps filters
them out when copying user props so they cannot shadow the injected values. -/
def isSpecialProp (k : String) : Bool :=
  k == "children" || k == "key" || k == "shouldUpdate" ||
  k == "$$refId" || k == "$$previousRefId"

/-- The path argument of processLisp: either the newPath sentinel used by
createElement for the root call, or a concrete refId string. -/
inductive RPath where
  | newP
  | pathStr (s : String)

/-- Modelled from the spec: constants.js is not in the source tree; the spec
(section 8) shows RefIds of the form root/@item/0, so pathSeparator is "/".
addToRefId returns the location alone when the current path is the newPath
sentinel. -/
def addToRefId (currentPath : RPath) (location : Val) : String :=
  match currentPath with
  | .newP => jsTemplateStr location
  | .pathStr s => s ++ "/" ++ jsTemplateStr location

/-- The vnodeKeyTypes table: keys may only be strings or numbers. -/
def isKeyTypeOk : Val → Bool
  | .str _ => true
  | .num _ => true
  | _ => false

/-- Modelled from the spec: utils.js is not in the source tree; isDef holds
for every value other than undefined. -/
def isDefB : Val → Bool
  | .undef => false
  | _ => true

/-- One character of the key pattern a-zA-Z0-9-_/ of keyRegex. -/
def isKeyChar (c : Char) : Bool :=
  c.isAlphanum || c == '-' || c == '_' || c == '/'

/-- The keyRegex test: every character of the stringified key matches the
allowed class (the regex is anchored on both sides with a star). -/
def keyOkB (s : String) : Bool :=
  s.data.all isKeyChar

/-- validateKey of element.js: outside development mode the key is returned
unchanged with no checks; in development a defined key must be a string or
number and must satisfy keyRegex, otherwise a descriptive error is raised. -/
def validateKey (dev : Bool) (key : Val) (keyType : String) : Except Err Val :=
  if !dev then .ok key
  else if !(isDefB key) then .ok key
  else if !(isKeyTypeOk key) then
    .error (.invalidKey (keyType ++ " may only be a string or number"))
  else if !(keyOkB (jsTemplateStr key)) then
    .error (.invalidKey (keyType ++ " must satisfy the key pattern"))
  else .ok key

/-- A render config as recorded by parseProps: canonical props, the resolved
refId (stored in the key field), and the constructor. -/
structure Config where
  props : List (String × Val)
  key : String
  ctor : Option Fn

/-- A reactive model cell: its current value and its watcher list keyed by
refId.  A watcher is the update closure of a useModel call; it is identified
here by the refId it forces an update of. -/
structure Model where
  value : Val
  watchers : List (String × String)

/-- A cleanup payload queued by enqueueHook for node teardown. -/
structure HookPayload where
  key : Val
  shouldCleanup : Bool
  watcher : String

/-- The process-wide mutable stores of the engine, made explicit: the
render-context current-config and dispatcher stores, the tree-value store,
the scoped model registries, the queued teardown hooks, and two pieces of
instrumentation: the chronological log of actual component invocations and
the patch requests issued to the external patch engine. -/
structure St where
  configs : List (String × Config) := []
  dispatchers : List (String × Fn) := []
  tree : List (String × Val) := []
  activeModels : List (String × List (Val × Model)) := []
  hooks : List (String × HookPayload) := []
  invoked : List (String × Fn) := []
  patches : List (Val × Val) := []

/-- The empty initial state. -/
def st0 : St := {}

/-- The onPathValue completion callback, defunctionalized: the render entry
point passes setTreeValue, plain createElement defaults to identity. -/
inductive OnPath where
  | setTree
  | ignore

/-- Modelled from the spec: vnode.js is not in the source tree; setTreeValue
writes the completed value into the process-wide tree-value store keyed by
refId (spec section 6). -/
def applyOnPath : OnPath → String → Val → St → St
  | .setTree, id, v, st => { st with tree := aset st.tree id v }
  | .ignore, _, _, st => st

/-- The exported Fragment component of element.js: destructures children from
its props and returns them. -/
def Fragment (props : List (String × Val)) : Val :=
  getProp props "children"

/-- The bodies of the defunctionalized components.  c1test is a constant
component used by the memoization scenario; wrapper returns the expression
[inner, {}] unchanged; inner returns the leaf expression [span]; fragComp
returns a two-element collection of leaf expressions, producing a fragment. -/
def applyComp : CompId → List (String × Val) → Val
  | .fragment, p => Fragment p
  | .c1test, _ => .str "ok"
  | .wrapper, _ => .arr [.fnv (.comp .inner), .obj []]
  | .inner, _ => .arr [.fnv (.dom "span")]
  | .fragComp, _ => .arr [.arr [.fnv (.dom "li")], .arr [.fnv (.dom "li")]]

/-- The defunctionalized shouldUpdate predicates applied to old and new
props. -/
def applyPred : Pred → List (String × Val) → List (String × Val) → Bool
  | .alwaysTrue, _, _ => true
  | .xEq, a, b => jsStrictEq (getProp a "x") (getProp b "x")
  | .xNeq, a, b => !(jsStrictEq (getProp a "x") (getProp b "x"))

/-- primitiveTypes of vnode.js, modelled from the spec: strings and numbers
are converted to text nodes (spec section 3, Leaf Value). -/
def isPrimitiveVal : Val → Bool
  | .str _ => true
  | .num _ => true
  | _ => false

/-- ignoredValues of vnode.js, modelled from the spec: explicitly ignored
values such as null and false become comment placeholders (spec section 3). -/
def isIgnoredVal : Val → Bool
  | .null => true
  | .undef => true
  | .bool _ => true
  | _ => false

/-- Whether a value is a realized vnode, as tested by isType with
valueTypes.vnode. -/
def isVnodeB : Val → Bool
  | .vnode _ _ _ _ _ => true
  | _ => false

/-- Modelled from the spec: vnode.js is not in the source tree; createVnode
applied by a defineElement factory builds a composite node from the tag and
the parsed config: canonical props, the resolved refId as key (the config's
key field holds the refId), and the refId itself (spec section 3, Composite
Node). -/
def createVnode (tag : String) (config : Config) : Val :=
  .vnode (some tag) none config.props (some (.str config.key))
    (match getProp config.props "$$refId" with
     | .str s => some s
     | _ => none)

/-- Modelled from the spec: vnode.js is not in the source tree; createTextVnode
converts a primitive to a text node (spec section 3, Leaf Value). -/
def createTextVnode (v : Val) : Val :=
  .vnode none (some (jsTemplateStr v)) [] none none

/-- The comment placeholder produced for ignored values: createVnode of the
"!" selector with the stringified value as its text. -/
def commentVnode (v : Val) : Val :=
  .vnode (some "!") (some (jsTemplateStr v)) [] none none

/-- Modelled from the spec: vnode.js is not in the source tree;
validateVnodeValue accepts a realized vnode at leaf position and rejects any
other unrecognized value, gated behind development mode like the other
validations (spec section 7). -/
def validateVnodeValue (dev : Bool) (v : Val) : Except Err Val :=
  if !dev then .ok v
  else match v with
    | .vnode s t p k r => .ok (.vnode s t p k r)
    | _ => .error .invalidVnodeValue

/-- The configuration-object probe of parseProps (getPropsFromArgs): the
second element of the expression is the config when it is a plain object and
not a vnode. -/
def maybeConfigObj : List Val → Option (List (String × Val))
  | _ :: .obj p :: _ => some p
  | _ => none

/-- The prepareArgs loop: evaluates each remaining positional element through
the argument processor, passing the resolved refId as path and the element's
position as its default key, threading the state. -/
def prepareArgs (evalArg : Val → String → Val → St → Except Err (Val × St)) :
    List Val → String → Nat → St → Except Err (List Val × St)
  | [], _, _, st => .ok ([], st)
  | a :: rest, refId, i, st =>
    match evalArg a refId (.num (Int.ofNat i)) st with
    | .error e => .error e
    | .ok (v, st1) =>
      match prepareArgs evalArg rest refId (i + 1) st1 with
      | .error e => .error e
      | .ok (vs, st2) => .ok (v :: vs, st2)

/-- applyProps of element.js: copies the user props onto the config props in
key order, filtering out the reserved keys so the injected refId and children
cannot be shadowed. -/
def applyProps (configProps userProps : List (String × Val)) :
    List (String × Val) :=
  userProps.foldl
    (fun acc kv => if isSpecialProp kv.1 then acc else aset acc kv.1 kv.2)
    configProps

/-- parseProps of element.js, parameterized by the argument processor the
evaluator supplies (processLisp for leaf-constructor calls, identity for
component calls).  Returns the config, a flag recording whether the stored
current config was returned unchanged (the memoization reference-equality
test of processLisp), and the threaded state.  Steps, as in the source:
validate the original key, default the key to the inherited one, honor a
previousRefId override, evaluate the positional arguments, merge props with
the reserved keys filtered, then compare against the stored config with the
caller-supplied shouldUpdate predicate (default alwaysTrue). -/
def parseProps (dev : Bool)
    (evalArg : Val → String → Val → St → Except Err (Val × St))
    (value : List Val) (path : RPath) (prevKey : Val) (ctor : Option Fn)
    (st : St) : Except Err (Config × Bool × St) :=
  let props := (maybeConfigObj value).getD []
  match validateKey dev (getProp props "key") "key" with
  | .error e => .error e
  | .ok _ =>
    let key := match getProp props "key" with
      | .undef => prevKey
      | k => k
    let refId := match getProp props "$$previousRefId" with
      | .undef => addToRefId path key
      | v => jsTemplateStr v
    let skip := match maybeConfigObj value with
      | some _ => 2
      | none => 1
    match prepareArgs evalArg (value.drop skip) refId 0 st with
    | .error e => .error e
    | .ok (args, st1) =>
      let cfgProps :=
        applyProps [("$$refId", .str refId), ("children", .arr args)] props
      let config : Config := ⟨cfgProps, refId, ctor⟩
      let currentConfig := alookup st1.configs refId
      let oProps := (currentConfig.map Config.props).getD []
      match getProp props "shouldUpdate" with
      | .undef =>
        if currentConfig.isSome && !(applyPred .alwaysTrue oProps cfgProps)
        then .ok (currentConfig.getD config, true, st1)
        else .ok (config, false, st1)
      | .predv p =>
        if currentConfig.isSome && !(applyPred p oProps cfgProps)
        then .ok (currentConfig.getD config, true, st1)
        else .ok (config, false, st1)
      | _ => .error (.typeError "shouldUpdate is not callable")

/-- Reads the refId string a config's props carry. -/
def cfgRefId (c : Config) : String :=
  jsTemplateStr (getProp c.props "$$refId")

/-- processLisp of element.js: recursively evaluates lisp data.  Primitives
become text nodes, ignored values become comment placeholders, arrays with a
callable head are expressions, other arrays are plain collections whose
elements are evaluated one identity level deeper under the @item marker with
their index as default key, and any other value is validated and passed
through.  For an expression: leaf-constructor heads evaluate their arguments
eagerly while component heads receive them raw; props are parsed, the
memoization store is consulted (returning the stored tree value when the
stored config was returned unchanged), otherwise the config and dispatcher
are recorded, the head is invoked (logged in the state), its result is
evaluated with the resolved refId as path base and the @fn continuation
marker as key, and the completion callback is notified. -/
def processLisp (dev : Bool) (onPath : OnPath) :
    Nat → Val → RPath → Val → Option Fn → St → Except Err (Val × St)
  | 0, _, _, _, _, _ => .error .outOfFuel
  | fuel + 1, value, path, prevKey, prevCtor, st =>
    if isPrimitiveVal value then .ok (createTextVnode value, st)
    else if isIgnoredVal value then .ok (commentVnode value, st)
    else match value with
      | .arr (.fnv fn :: restArgs) =>
        let vals := Val.fnv fn :: restArgs
        let evalArg : Val → String → Val → St → Except Err (Val × St) :=
          match fn with
          | .dom _ => fun a p k s =>
              processLisp dev onPath fuel a (.pathStr p) k (some fn) s
          | .comp _ => fun a _ _ s => .ok (a, s)
        match parseProps dev evalArg vals path prevKey (some fn) st with
        | .error e => .error e
        | .ok (config, memoized, st1) =>
          let refId := cfgRefId config
          if memoized then .ok ((alookup st1.tree refId).getD .undef, st1)
          else
            let st2 := { st1 with
              configs := aset st1.configs refId config,
              dispatchers := aset st1.dispatchers refId fn,
              invoked := st1.invoked ++ [(refId, fn)] }
            let nextValue := match fn with
              | .dom tag => createVnode tag config
              | .comp c => applyComp c config.props
            match processLisp dev onPath fuel nextValue (.pathStr refId)
                (.str "@fn") (some fn) st2 with
            | .error e => .error e
            | .ok (finalValue, st3) =>
              .ok (finalValue, applyOnPath onPath refId finalValue st3)
      | .arr vals =>
        let nextPath := addToRefId path (.str "@item")
        match prepareArgs
            (fun a p k s =>
              processLisp dev onPath fuel a (.pathStr p) k prevCtor s)
            vals nextPath 0 st with
        | .error e => .error e
        | .ok (vs, st1) => .ok (.arr vs, st1)
      | v =>
        match validateVnodeValue dev v with
        | .error e => .error e
        | .ok v2 => .ok (v2, st)

/-- Whether the tree-value store has an entry for the seed, as hasTreeValue
tests it; the store is keyed by refId strings, so only a string seed can be a
pre-existing path. -/
def hasTreeValueV (st : St) (seedPath : Val) : Bool :=
  match seedPath with
  | .str s => (alookup st.tree s).isSome
  | _ => false

/-- validateSeedPath of element.js: a pre-existing path is accepted as is;
otherwise the seed must be a string or number and must satisfy the key
pattern. -/
def validateSeedPath (st : St) (seedPath : Val) : Except Err Unit :=
  if hasTreeValueV st seedPath then .ok ()
  else if !(isKeyTypeOk seedPath) then
    .error (.invalidSeed "createElement seedPath must be a string or number")
  else
    match validateKey true seedPath "seedPath" with
    | .error e => .error e
    | .ok _ => .ok ()

/-- createElement of element.js: validates the seed in development mode,
returns an already-realized vnode unchanged, and otherwise evaluates the
expression from the newPath sentinel with the stringified seed as inherited
key.  The completion callback defaults to identity in the source; it is an
explicit argument here. -/
def createElement (dev : Bool) (fuel : Nat) (value : Val) (seedPath : Val)
    (onPath : OnPath) (st : St) : Except Err (Val × St) :=
  match (if dev then validateSeedPath st seedPath else .ok ()) with
  | .error e => .error e
  | .ok _ =>
    if isVnodeB value then .ok (value, st)
    else processLisp dev onPath fuel value .newP
      (.str (jsTemplateStr seedPath)) none st

/-- renderWith of element.js: evaluates the component, then requests a patch
of the previous node against the new one; the request is recorded in the
state (the diff/patch engine is the external collaborator of spec section 6,
and onVtreeCompleted flushes teardown hooks in vnode.js, not modelled because
no claim concerns teardown).  patch returns the committed node. -/
def renderWith (dev : Bool) (fuel : Nat) (st : St) (fromNode component : Val)
    (seedPath : Val) (onPath : OnPath) : Except Err (Val × St) :=
  match createElement dev fuel component seedPath onPath st with
  | .error e => .error e
  | .ok (toNode, st1) =>
    .ok (toNode, { st1 with patches := st1.patches ++ [(fromNode, toNode)] })

/-- Splitting a character list on a separator character; the structural
counterpart of the String.split used by the source (the path separator is the
single character /). -/
def splitChars (sep : Char) : List Char → List (List Char)
  | [] => [[]]
  | c :: cs =>
    let r := splitChars sep cs
    if c == sep then [] :: r
    else match r with
      | h :: t => (c :: h) :: t
      | [] => [[c]]

/-- String splitting on the path separator, as refId.split(pathSeparator). -/
def jsSplit (s : String) (sep : Char) : List String :=
  (splitChars sep s.data).map (fun l => String.mk l)

/-- Joining path segments with the separator, as pathArray.join or the slice
plus join of findParentVnode. -/
def joinSep (sep : String) : List String → String
  | [] => ""
  | [x] => x
  | x :: xs => x ++ sep ++ joinSep sep xs

/-- getPathRoot of hooks.js: the prefix of a refId up to the first path
separator, or the whole refId when it contains none. -/
def getPathRoot (path : String) : String :=
  (jsSplit path '/').headD path

/-- getScopedModels of hooks.js: the model registry owned by the refId's
subtree root, if one has been created. -/
def getScopedModels (st : St) (path : String) : Option (List (Val × Model)) :=
  alookup st.activeModels (getPathRoot path)

/-- Registry lookup keyed by arbitrary model keys, using JS Map key
equality. -/
def regLookup : List (Val × Model) → Val → Option Model
  | [], _ => none
  | (k1, m) :: rest, k => if jsStrictEq k1 k then some m else regLookup rest k

/-- Registry update with JS Map.set semantics: an existing entry keeps its
position and stored key, otherwise the pair is appended. -/
def regSet : List (Val × Model) → Val → Model → List (Val × Model)
  | [], k, m => [(k, m)]
  | (k1, m1) :: rest, k, m =>
    if jsStrictEq k1 k then (k1, m) :: rest else (k1, m1) :: regSet rest k m

/-- initModel of hooks.js: a function-valued initial model is a zero-argument
producer and is called (modelled as applying the component to empty props);
any other value is used directly as the atom's initial value. -/
def initModel : Val → Val
  | .fnv (.comp c) => applyComp c []
  | v => v

/-- The options argument of useModel; shouldCleanup is defunctionalized to
the boolean it returns, defaulting to true as in defaultOptions. -/
structure UMOptions where
  shouldCleanup : Bool := true

/-- The body of useModel once the scoped registry for the refId's root
exists: look up or lazily create the model at the key, store it, attach the
watcher that forces an update of refId, and queue the teardown payload.  The
JS code stores the model object and then mutates it via addWatch; the two
steps are collapsed into storing the watched model, which yields the same
final registry. -/
def useModelGo (st : St) (refId : String) (key : Val) (im : Val)
    (opts : UMOptions) (reg : List (Val × Model)) : Model × St :=
  let m0 := (regLookup reg key).getD ⟨initModel im, []⟩
  let m : Model := { m0 with watchers := aset m0.watchers refId refId }
  let reg2 := regSet reg key m
  let st2 := { st with
    activeModels := aset st.activeModels (getPathRoot refId) reg2,
    hooks := st.hooks ++ [(refId, ⟨key, opts.shouldCleanup, refId⟩)] }
  (m, st2)

/-- useModel of hooks.js.  The key defaults to the refId itself (a JS default
parameter, taken when the argument is undefined).  When no scoped registry
exists for the refId's subtree root one is created and the call retries (the
source recurses once; the recursion is unrolled here since the registry
exists after setup). -/
def useModel (st : St) (refId : String) (keyArg : Val) (im : Val)
    (opts : UMOptions) : Model × St :=
  let key := match keyArg with
    | .undef => Val.str refId
    | k => k
  match getScopedModels st refId with
  | some reg => useModelGo st refId key im opts reg
  | none =>
    let st1 :=
      { st with activeModels := aset st.activeModels (getPathRoot refId) [] }
    useModelGo st1 refId key im opts []

/-- hasModel of hooks.js: looks the key up in the scoped registry, falling
back to an empty map when the refId's root has no registry (withDefault of
utils.js, modelled from the spec as the fallback-on-missing helper since
utils.js is not in the source tree). -/
def hasModel (st : St) (refId : String) (key : Val) : Bool :=
  (regLookup ((getScopedModels st refId).getD []) key).isSome

/-- The descending prefix walk of findParentVnode: tries the join of the
first n path segments, returning the stored value when it is a vnode. -/
def findParentGo (st : St) (pathArray : List String) : Nat → Val
  | 0 => .str "noParentVnodeFound"
  | n + 1 =>
    let path := joinSep "/" (pathArray.take (n + 1))
    let v := (alookup st.tree path).getD .undef
    if isVnodeB v then v else findParentGo st pathArray n

/-- findParentVnode of hooks.js: walks the refId's path upward through the
tree-value store until it finds the nearest ancestor vnode. -/
def findParentVnode (st : St) (pathArray : List String) : Val :=
  findParentGo st pathArray pathArray.length

/-- The refId read off the head of a fragment by forceUpdate's
processChildren (ch[0].refId): reading a property of null or undefined is a
type error; a vnode yields its refId; other values yield undefined. -/
def refIdOfVal : Val → Except Err (Option String)
  | .vnode _ _ _ _ r => .ok r
  | .null => .error (.typeError "cannot read refId of null")
  | .undef => .error (.typeError "cannot read refId of undefined")
  | .obj p =>
    .ok (match getProp p "refId" with
         | .str s => some s
         | _ => none)
  | _ => .ok none

/-- ch[0].refId: indexing an empty array yields undefined, whose refId read
is a type error. -/
def headRefId : List Val → Except Err (Option String)
  | [] => .error (.typeError "cannot read refId of undefined")
  | v :: _ => refIdOfVal v

mutual

/-- processChildren of forceUpdate in hooks.js, on one child: a fragment
child whose head shares the current fragment's head refId is replaced by the
newly computed value; any other fragment child is mapped recursively to
handle nested fragments; every other child is returned unchanged. -/
def processChild (curFrag : List Val) (nextValue : Val) : Val → Except Err Val
  | .arr chl =>
    match headRefId chl with
    | .error e => .error e
    | .ok r1 =>
      match headRefId curFrag with
      | .error e => .error e
      | .ok r0 =>
        if r1 == r0 then .ok nextValue
        else match processChildList curFrag nextValue chl with
          | .error e => .error e
          | .ok mapped => .ok (.arr mapped)
  | v => .ok v

/-- The element-wise map of processChildren over a children list. -/
def processChildList (curFrag : List Val) (nextValue : Val) :
    List Val → Except Err (List Val)
  | [] => .ok []
  | c :: cs =>
    match processChild curFrag nextValue c with
    | .error e => .error e
    | .ok c2 =>
      match processChildList curFrag nextValue cs with
      | .error e => .error e
      | .ok cs2 => .ok (c2 :: cs2)

end

/-- Modelled from the spec: vnode.js is not in the source tree; createVnode
applied to a vnode-shaped object (the spread in forceUpdate) regenerates the
node from its props, so the new ancestor node carries the updated children
(spec section 4.4 and the comment above the call in hooks.js). -/
def remakeVnode (sel : Option String) (key : Option Val)
    (props : List (String × Val)) : Val :=
  .vnode sel none props key
    (match getProp props "$$refId" with
     | .str s => some s
     | _ => none)

/-- forceUpdate of hooks.js: re-runs the component at refId with its
last-known props overridden ($$previousRefId pinned to the same refId and
shouldUpdate forced to alwaysTrue, bypassing memoization).  A single-node
previous value is re-rendered against itself (the in-place Object.assign of
the source is aliasing and has no separate shallow counterpart; the state
after the render carries the new value).  A previous fragment is re-rendered
by locating the nearest ancestor vnode, recomputing the fragment, rebuilding
the ancestor's children with processChildren, creating the new ancestor node
from the updated props, and requesting a patch against the previous ancestor
node. -/
def forceUpdate (dev : Bool) (fuel : Nat) (st : St) (refId : String) :
    Except Err St :=
  match alookup st.configs refId with
  | none => .error (.typeError "cannot destructure config of noCurrentConfig")
  | some cfg =>
    let props := cfg.props
    let prevRefVal := getProp props "$$refId"
    let rest := props.filter (fun kv => kv.1 ≠ "$$refId")
    let currentProps :=
      aset (aset rest "$$previousRefId" prevRefVal)
        "shouldUpdate" (.predv .alwaysTrue)
    let dispVal : Val := match alookup st.dispatchers refId with
      | some f => .fnv f
      | none => .undef
    let lisp : Val := .arr [dispVal, .obj currentProps]
    let pathArray := jsSplit refId '/'
    let isVtreeRoot := pathArray.length == 1
    let currentValue := (alookup st.tree refId).getD .undef
    match currentValue with
    | .arr frag =>
      match findParentVnode st pathArray with
      | .vnode psel ptext pprops pkey prefId =>
        match getProp pprops "children" with
        | .arr oChildren =>
          (match createElement dev fuel lisp (.str refId) .ignore st with
           | .error e => .error e
           | .ok (nextValue, st1) =>
             match processChildList frag nextValue oChildren with
             | .error e => .error e
             | .ok newChildren =>
               let parentRefId := getProp pprops "$$refId"
               let newProps := aset pprops "children" (.arr newChildren)
               let nextParentVnode := remakeVnode psel pkey newProps
               match renderWith dev fuel st1
                   (.vnode psel ptext pprops pkey prefId)
                   nextParentVnode parentRefId .ignore with
               | .error e => .error e
               | .ok (_, st2) => .ok st2)
        | _ => .error (.typeError "parent children is not mappable")
      | _ => .error (.typeError "cannot read props of non-vnode parent")
    | _ =>
      let onPath := if isVtreeRoot then OnPath.setTree else OnPath.ignore
      match renderWith dev fuel st currentValue lisp (.str refId) onPath with
      | .error e => .error e
      | .ok (_, st1) => .ok st1

/- Scenario definitions used by the claim theorems. -/

/-- The key field of a vnode, undefined for other values. -/
def vnodeKey : Val → Option Val
  | .vnode _ _ _ k _ => k
  | _ => none

/-- The refId field of a vnode, undefined for other values. -/
def vnodeRefIdF : Val → Option String
  | .vnode _ _ _ _ r => r
  | _ => none

/-- Whether evaluation succeeded. -/
def exOk : Except Err Val → Bool
  | .ok _ => true
  | .error _ => false

/-- The leaf node a defineElement factory produces for an empty invocation at
a given refId. -/
def domLeaf (tag id : String) : Val :=
  .vnode (some tag) none [("$$refId", .str id), ("children", .arr [])]
    (some (.str id)) (some id)

/-- The memoization scenario expression: [c1test, {x, shouldUpdate?}]. -/
def c1Expr (su : Option Pred) (x : Int) : Val :=
  .arr [.fnv (.comp .c1test),
        .obj ([("x", .num x)] ++
          (match su with
           | some p => [("shouldUpdate", Val.predv p)]
           | none => []))]

/-- One evaluation of the memoization scenario from the empty state: the
render entry with seed "root" and the tree-store completion callback. -/
def c1Run1 (su : Option Pred) (x : Int) : Except Err (Val × St) :=
  createElement false 20 (c1Expr su x) (.str "root") .setTree st0

/-- A further evaluation of the memoization scenario from the state a
previous evaluation produced. -/
def c1Next (su : Option Pred) (x : Int) (r : Except Err (Val × St)) :
    Except Err (Val × St) :=
  Except.bind r
    (fun p => createElement false 20 (c1Expr su x) (.str "root") .setTree p.2)

/-- An li leaf node at a given refId, as the fragment scenario produces. -/
def liVn (id : String) : Val :=
  .vnode (some "li") none [("$$refId", .str id), ("children", .arr [])]
    (some (.str id)) (some id)

/-- The stored render config of the fragment component at refId root/1. -/
def c5Cfg : Config :=
  ⟨[("$$refId", .str "root/1"), ("children", .arr [])], "root/1",
   some (.comp .fragComp)⟩

/-- The ancestor composite node of the fragment scenario: a ul at refId root
whose children are some other children, then the fragment, then more other
children. -/
def c5Parent (pre post frag : List Val) : Val :=
  .vnode (some "ul") none
    [("$$refId", .str "root"), ("children", .arr (pre ++ .arr frag :: post))]
    (some (.str "root")) (some "root")

/-- The state after a render in which the component at root/1 last produced
the fragment frag under the ancestor node at root: config and dispatcher
recorded for root/1, tree-value store holding the ancestor and the
fragment. -/
def c5St (pre post frag : List Val) : St :=
  { configs := [("root/1", c5Cfg)],
    dispatchers := [("root/1", .comp .fragComp)],
    tree := [("root", c5Parent pre post frag), ("root/1", .arr frag)] }

/-- The fragment the forced update newly computes: fragComp invoked at
root/1 again yields two li nodes at the item refIds. -/
def c5NextFrag : Val :=
  .arr [liVn "root/1/@item/0", liVn "root/1/@item/1"]

/-- The new ancestor node the forced update creates: the same ul with the
fragment slot replaced by the newly computed fragment and every other child
kept verbatim. -/
def c5NewParent (pre post : List Val) : Val :=
  .vnode (some "ul") none
    [("$$refId", .str "root"),
     ("children", .arr (pre ++ c5NextFrag :: post))]
    (some (.str "root")) (some "root")

/-- The render config recorded for an empty li invocation at a refId. -/
def c5LiCfg (id : String) : Config :=
  ⟨[("$$refId", .str id), ("children", .arr [])], id, some (.dom "li")⟩

/-- The full state the forced update of the fragment scenario produces: the
re-invocation records fresh configs, dispatchers and invocation-log entries
for the fragment component and its two li leaves, the tree-value store is
untouched (the fragment path uses the identity completion callback), and
exactly one patch is requested, against the previous ancestor node. -/
def c5StOut (pre post frag : List Val) : St :=
  { configs := [("root/1", c5Cfg),
      ("root/1/@item/0", c5LiCfg "root/1/@item/0"),
      ("root/1/@item/1", c5LiCfg "root/1/@item/1")],
    dispatchers := [("root/1", .comp .fragComp),
      ("root/1/@item/0", .dom "li"), ("root/1/@item/1", .dom "li")],
    tree := [("root", c5Parent pre post frag), ("root/1", .arr frag)],
    invoked := [("root/1", .comp .fragComp),
      ("root/1/@item/0", .dom "li"), ("root/1/@item/1", .dom "li")],
    patches := [(c5Parent pre post frag, c5NewParent pre post)] }

/- Helper lemmas shared by the claim proofs. -/

theorem alookup_aset_self {α : Type} (l : List (String × α)) (k : String)
    (v : α) : alookup (aset l k v) k = some v := by
  induction l with
  | nil => simp [aset, alookup]
  | cons kv rest ih =>
    obtain ⟨k1, v1⟩ := kv
    by_cases h : (k1 == k) = true
    · simp [aset, alookup, h]
    · simp only [aset, alookup, h, Bool.false_eq_true, if_false]
      simpa [alookup, h] using ih

theorem regLookup_regSet_self (reg : List (Val × Model)) (k : Val) (m : Model)
    (hk : jsStrictEq k k = true) : regLookup (regSet reg k m) k = some m := by
  induction reg with
  | nil => simp [regSet, regLookup, hk]
  | cons kv rest ih =>
    obtain ⟨k1, m1⟩ := kv
    by_cases h : jsStrictEq k1 k = true
    · simp [regSet, regLookup, h]
    · simp only [regSet, regLookup, h, Bool.false_eq_true, if_false]
      simpa [regLookup, h] using ih

theorem jsStrictEq_str_self (s : String) : jsStrictEq (.str s) (.str s) = true := by
  simp [jsStrictEq]

theorem processChildList_all_vnode (cf : List Val) (nv : Val) :
    ∀ l : List Val, l.all isVnodeB = true →
      processChildList cf nv l = .ok l := by
  intro l h
  induction l with
  | nil => rfl
  | cons c cs ih =>
    rw [List.all_cons, Bool.and_eq_true] at h
    obtain ⟨h1, h2⟩ := h
    cases c <;> simp [isVnodeB] at h1
    simp [processChildList, processChild, ih h2]

theorem processChildList_append (cf : List Val) (nv : Val)
    (l1 l2 : List Val) :
    processChildList cf nv (l1 ++ l2) =
      match processChildList cf nv l1 with
      | .error e => .error e
      | .ok a =>
        match processChildList cf nv l2 with
        | .error e => .error e
        | .ok b => .ok (a ++ b) := by
  induction l1 with
  | nil =>
    simp only [List.nil_append, processChildList]
    cases processChildList cf nv l2 <;> rfl
  | cons c cs ih =>
    simp only [List.cons_append, processChildList]
    cases processChild cf nv c with
    | error e => rfl
    | ok c2 =>
      simp only [List.append_eq]
      rw [ih]
      cases processChildList cf nv cs <;>
        cases processChildList cf nv l2 <;> rfl

/- Claim theorems. -/

/-- C1, counterexample.  The claim reads shouldUpdate as an equality
predicate, but parseProps skips re-invocation exactly when shouldUpdate
returns false.  With shouldUpdate = (a, b) => a.x === b.x and first props
{x:1}: a second evaluation with {x:1} makes the predicate return true, so the
component IS re-invoked (the invocation log grows to 2), and a third
evaluation with {x:2} makes it return false, so the component is NOT
re-invoked (the log stays at 2) — both opposite to the claim. -/
theorem C1_memoization_counterexample :
    (c1Next (some .xEq) 1 (c1Run1 (some .xEq) 1)).map
        (fun p => p.2.invoked.length) = .ok 2
  ∧ (c1Next (some .xEq) 2 (c1Next (some .xEq) 1 (c1Run1 (some .xEq) 1))).map
        (fun p => p.2.invoked.length) = .ok 2 :=
  ⟨by rfl, by rfl⟩

/-- C1, amended.  shouldUpdate is a should-re-invoke predicate, not an
equality test.  With shouldUpdate = (a, b) => a.x !== b.x and first props
{x:1}: a second evaluation with {x:1} does not re-invoke the component (the
invocation log stays at 1) and returns the previously computed tree value for
the RefId (which the first evaluation stored at "root"); a third evaluation
with {x:2} does re-invoke it (log grows to 2); and with no shouldUpdate
supplied the default is alwaysTrue, so the component is always re-invoked
(log is 2 after two identical evaluations). -/
theorem C1_memoization_amended :
    (c1Next (some .xNeq) 1 (c1Run1 (some .xNeq) 1)).map
        (fun p => (p.1, p.2.invoked.length)) =
      .ok (.vnode none (some "ok") [] none none, 1)
  ∧ (c1Run1 (some .xNeq) 1).map (fun p => alookup p.2.tree "root") =
      .ok (some (.vnode none (some "ok") [] none none))
  ∧ (c1Next (some .xNeq) 2 (c1Next (some .xNeq) 1 (c1Run1 (some .xNeq) 1))).map
        (fun p => p.2.invoked.length) = .ok 2
  ∧ (c1Next none 1 (c1Run1 none 1)).map
        (fun p => p.2.invoked.length) = .ok 2 :=
  ⟨by rfl, by rfl, by rfl, by rfl⟩

/-- C2.  An unkeyed collection of three leaf-constructor invocations
evaluated at parent path "root" is mapped one identity level deeper under the
@item marker with each element's index as its default key: the evaluator
yields the three nodes with RefIds root/@item/0, root/@item/1, root/@item/2
in order, and records configs, dispatchers, invocations and tree values under
exactly those RefIds, for every choice of tags, inherited key and previous
constructor. -/
theorem C2_index_fallback (t1 t2 t3 : String) (pk : Val) (pc : Option Fn) :
    processLisp false .setTree 20
        (.arr [.arr [.fnv (.dom t1)], .arr [.fnv (.dom t2)],
               .arr [.fnv (.dom t3)]])
        (.pathStr "root") pk pc st0 =
      .ok (.arr [domLeaf t1 "root/@item/0", domLeaf t2 "root/@item/1",
                 domLeaf t3 "root/@item/2"],
        { configs := [
            ("root/@item/0",
             ⟨[("$$refId", .str "root/@item/0"), ("children", .arr [])],
              "root/@item/0", some (.dom t1)⟩),
            ("root/@item/1",
             ⟨[("$$refId", .str "root/@item/1"), ("children", .arr [])],
              "root/@item/1", some (.dom t2)⟩),
            ("root/@item/2",
             ⟨[("$$refId", .str "root/@item/2"), ("children", .arr [])],
              "root/@item/2", some (.dom t3)⟩)],
          dispatchers := [("root/@item/0", .dom t1), ("root/@item/1", .dom t2),
            ("root/@item/2", .dom t3)],
          tree := [("root/@item/0", domLeaf t1 "root/@item/0"),
            ("root/@item/1", domLeaf t2 "root/@item/1"),
            ("root/@item/2", domLeaf t3 "root/@item/2")],
          invoked := [("root/@item/0", .dom t1), ("root/@item/1", .dom t2),
            ("root/@item/2", .dom t3)] }) := by
  rfl

/-- C3, counterexample.  An invocation supplying both a children prop and a
positional child evaluates without any error and produces a node: the current
parseProps has no conflicting-children check (only the legacy revision of the
module raised that error). -/
theorem C3_children_conflict_counterexample :
    (createElement false 20
        (.arr [.fnv (.comp .c1test), .obj [("children", .str "fromProps")],
               .str "pos"])
        (.str "root") .setTree st0).map Prod.fst =
      .ok (.vnode none (some "ok") [] none none) := by
  rfl

/-- C3, amended.  Supplying both a children prop and positional children
arguments is not an error in the current parseProps: children is a reserved
key filtered out when user props are copied, so the children prop is silently
dropped and the positional arguments become the canonical children — for
every mode, every children prop value and every positional argument. -/
theorem C3_children_conflict_amended (dev : Bool) (cv a : Val) :
    parseProps dev (fun x _ _ s => .ok (x, s))
        [.fnv (.comp .c1test), .obj [("children", cv)], a]
        (.pathStr "root") (.str "r") (some (.comp .c1test)) st0 =
      .ok (⟨[("$$refId", .str "root/r"), ("children", .arr [a])], "root/r",
            some (.comp .c1test)⟩, false, st0) := by
  cases dev <;> rfl

/-- C4, counterexample.  A Wrapper component invoked with key "k" that
returns the expression [inner, {}] unchanged eventually produces a span leaf
node whose key is its full RefId "k/@fn/@fn", not the bare string "k": the
current evaluator has no key pass-through marker, the key only becomes a path
segment of the RefId. -/
theorem C4_key_propagation_counterexample :
    (createElement false 20
        (.arr [.fnv (.comp .wrapper), .obj [("key", .str "k")]])
        (.str "root") .ignore st0).map (fun r => vnodeKey r.1) =
      .ok (some (.str "k/@fn/@fn"))
  ∧ "k/@fn/@fn" ≠ "k" :=
  ⟨by rfl, by decide⟩

/-- C4, amended.  The key of a component call is threaded through the
identity path rather than attached literally: invoking Wrapper with key "k"
resolves Wrapper's RefId to "k", its returned expression is evaluated one
level deeper under the @fn continuation marker, and the eventual leaf node
carries its own RefId "k/@fn/@fn" — the key "k" extended twice by the
path separator and the continuation marker, so the key survives only as the
leading path segment — as both its key and its refId. -/
theorem C4_key_propagation_amended :
    (createElement false 20
        (.arr [.fnv (.comp .wrapper), .obj [("key", .str "k")]])
        (.str "root") .ignore st0).map
        (fun r => (vnodeKey r.1, vnodeRefIdF r.1)) =
      .ok (some (.str "k/@fn/@fn"), some "k/@fn/@fn")
  ∧ "k/@fn/@fn" = "k" ++ "/" ++ "@fn" ++ "/" ++ "@fn" :=
  ⟨by rfl, by rfl⟩

/-- C6, counterexample.  createElement applied to an already-realized vnode
is not unconditionally the identity: the vnode check runs after the
development-mode seed validation, so in development mode a call with an
omitted (undefined) seed raises the invalid-seed error instead of returning
the node. -/
theorem C6_leaf_passthrough_counterexample :
    createElement true 20
        (.vnode (some "div") none [] none none) .undef .ignore st0 =
      .error (.invalidSeed "createElement seedPath must be a string or number") := by
  rfl

/-- C6, amended.  createElement returns an already-realized vnode unchanged
(same node, same state) whenever seed validation does not intervene: in every
non-development mode, or in development mode whenever the seed identity
passes validateSeedPath. -/
theorem C6_leaf_passthrough_amended (dev : Bool) (fuel : Nat)
    (s t : Option String) (p : List (String × Val)) (k : Option Val)
    (r : Option String) (seed : Val) (op : OnPath) (st : St)
    (h : dev = false ∨ validateSeedPath st seed = .ok ()) :
    createElement dev fuel (.vnode s t p k r) seed op st =
      .ok (.vnode s t p k r, st) := by
  rcases h with h | h
  · subst h; rfl
  · cases dev
    · rfl
    · simp [createElement, h, isVnodeB]

/-- C6, witness for the amended theorem. -/
theorem C6_leaf_passthrough_witness :
    createElement false 7 (.vnode (some "div") none [] none none)
        (.bool true) .ignore st0 =
      .ok (.vnode (some "div") none [] none none, st0) :=
  C6_leaf_passthrough_amended false 7 (some "div") none [] none none
    (.bool true) .ignore st0 (Or.inl rfl)

/-- C7.  Key validation is development-gated: outside development mode
validateKey returns every key unchanged and never raises; in development mode
a defined key that is not a string or number raises, and a string-or-number
key whose stringification fails the a-zA-Z0-9-_/ pattern raises. -/
theorem C7_validate_key_gating :
    (∀ (k : Val) (t : String), validateKey false k t = .ok k)
  ∧ (∀ (k : Val) (t : String), isDefB k = true → isKeyTypeOk k = false →
      exOk (validateKey true k t) = false)
  ∧ (∀ (k : Val) (t : String), isKeyTypeOk k = true →
      keyOkB (jsTemplateStr k) = false →
      exOk (validateKey true k t) = false) := by
  refine ⟨fun k t => rfl, fun k t h1 h2 => ?_, fun k t h1 h2 => ?_⟩
  · simp [validateKey, h1, h2, exOk]
  · have hdef : isDefB k = true := by
      cases k <;> simp_all [isKeyTypeOk, isDefB]
    simp [validateKey, hdef, h1, h2, exOk]

/-- C7, witness: a boolean key raises in development mode and passes
through untouched outside it; a string key containing a space raises in
development mode. -/
theorem C7_validate_key_witness :
    validateKey false (.bool true) "key" = .ok (.bool true)
  ∧ exOk (validateKey true (.bool true) "key") = false
  ∧ exOk (validateKey true (.str "bad key!") "key") = false :=
  ⟨C7_validate_key_gating.1 (.bool true) "key",
   C7_validate_key_gating.2.1 (.bool true) "key" (by rfl) (by rfl),
   C7_validate_key_gating.2.2 (.str "bad key!") "key" (by rfl) (by rfl)⟩

/-- C9.  hasModel is total when the refId's subtree root has no scoped model
registry: for every such refId and every key it returns false, falling back
to the empty map instead of dereferencing a missing registry. -/
theorem C9_has_model_total (st : St) (refId : String) (key : Val)
    (h : getScopedModels st refId = none) :
    hasModel st refId key = false := by
  simp [hasModel, h, regLookup]

/-- C9, witness: in the empty state no registry exists, and hasModel returns
false. -/
theorem C9_has_model_witness :
    hasModel st0 "a/b" (.str "counter") = false :=
  C9_has_model_total st0 "a/b" (.str "counter") rfl

/-- C10.  The exported Fragment component is the projection onto its children
prop: for every props mapping it returns exactly props.children; accordingly,
evaluating [Fragment, {}, a, b] renders just the two children. -/
theorem C10_fragment_projection :
    (∀ p : List (String × Val), Fragment p = getProp p "children")
  ∧ (createElement false 20
        (.arr [.fnv (.comp .fragment), .obj [], .str "a", .str "b"])
        (.str "root") .ignore st0).map Prod.fst =
      .ok (.arr [.vnode none (some "a") [] none none,
                 .vnode none (some "b") [] none none]) :=
  ⟨fun _ => rfl, by rfl⟩

/-- C8.  When the key argument of useModel is omitted (undefined), the model
key defaults to the refId itself: for every state, refId and initial value,
the call stores and returns a model under key refId in the scoped registry of
refId's subtree root — creating it from the initial value when absent (also
creating the registry itself when the root has none), and returning the
already-stored model's value when present. -/
theorem C8_use_model_default_key (st : St) (refId : String) (im : Val)
    (opts : UMOptions) :
    regLookup ((getScopedModels
          (useModel st refId .undef im opts).2 refId).getD [])
        (.str refId) = some (useModel st refId .undef im opts).1
  ∧ (getScopedModels st refId = none →
      (useModel st refId .undef im opts).1.value = initModel im)
  ∧ (∀ (reg : List (Val × Model)) (m0 : Model),
      getScopedModels st refId = some reg →
      regLookup reg (.str refId) = some m0 →
      (useModel st refId .undef im opts).1.value = m0.value) := by
  cases h : getScopedModels st refId with
  | none =>
    refine ⟨?_, fun _ => ?_, fun reg m0 hreg => ?_⟩
    · simp only [useModel, h]
      simp only [useModelGo, getScopedModels, alookup_aset_self,
        Option.getD_some]
      exact regLookup_regSet_self _ _ _ (jsStrictEq_str_self refId)
    · simp only [useModel, h]
      simp [useModelGo, regLookup]
    · exact absurd hreg (by simp)
  | some reg =>
    refine ⟨?_, fun hnone => ?_, fun reg1 m0 hreg hm0 => ?_⟩
    · simp only [useModel, h]
      simp only [useModelGo, getScopedModels, alookup_aset_self,
        Option.getD_some]
      exact regLookup_regSet_self _ _ _ (jsStrictEq_str_self refId)
    · exact absurd hnone (by simp)
    · injection hreg with hreg
      subst hreg
      simp only [useModel, h]
      simp [useModelGo, hm0]

/-- C8, witness: from the empty state, useModel at refId "a/b" with omitted
key and initial value 5 stores the model under key "a/b" in the registry of
root "a", and the created model holds 5. -/
theorem C8_use_model_witness :
    regLookup ((getScopedModels
          (useModel st0 "a/b" .undef (.num 5) {}).2 "a/b").getD [])
        (.str "a/b") = some (useModel st0 "a/b" .undef (.num 5) {}).1
  ∧ (useModel st0 "a/b" .undef (.num 5) {}).1.value = initModel (.num 5) :=
  ⟨(C8_use_model_default_key st0 "a/b" (.num 5) {}).1,
   (C8_use_model_default_key st0 "a/b" (.num 5) {}).2.1 rfl⟩

/-- C5.  Fragment forced update: for a component at refId root/1 whose last
render produced a fragment under the ancestor composite node at root (state
family c5St, for every surrounding children lists made of plain nodes and
every stored fragment whose head refId is readable), forceUpdate re-runs the
component, rebuilds the ancestor's children with exactly the fragment's slot
replaced by the newly computed fragment and every other child kept verbatim
(the new ancestor in c5StOut carries children pre ++ newFragment :: post),
leaves the tree-value store untouched, and requests exactly one patch whose
from-node is the previous ancestor node. -/
theorem C5_fragment_forced_update (pre post frag : List Val)
    (r0 : Option String)
    (hpre : pre.all isVnodeB = true) (hpost : post.all isVnodeB = true)
    (hfrag : headRefId frag = .ok r0) :
    forceUpdate false 30 (c5St pre post frag) "root/1" =
      .ok (c5StOut pre post frag)
  ∧ (c5StOut pre post frag).patches =
      [(c5Parent pre post frag, c5NewParent pre post)]
  ∧ (c5StOut pre post frag).tree = (c5St pre post frag).tree := by
  have h2 : processChild frag c5NextFrag (.arr frag) = .ok c5NextFrag := by
    simp [processChild, hfrag]
  have hpc : processChildList frag c5NextFrag (pre ++ Val.arr frag :: post) =
      .ok (pre ++ c5NextFrag :: post) := by
    rw [processChildList_append]
    rw [processChildList_all_vnode frag c5NextFrag pre hpre]
    have h3 := processChildList_all_vnode frag c5NextFrag post hpost
    simp only [processChildList, h2, h3]
  have hmid : forceUpdate false 30 (c5St pre post frag) "root/1" =
      (match processChildList frag c5NextFrag (pre ++ Val.arr frag :: post) with
       | .error e => (.error e : Except Err St)
       | .ok newChildren =>
         .ok { configs := [("root/1", c5Cfg),
                 ("root/1/@item/0", c5LiCfg "root/1/@item/0"),
                 ("root/1/@item/1", c5LiCfg "root/1/@item/1")],
               dispatchers := [("root/1", .comp .fragComp),
                 ("root/1/@item/0", .dom "li"), ("root/1/@item/1", .dom "li")],
               tree := [("root", c5Parent pre post frag),
                 ("root/1", .arr frag)],
               activeModels := [],
               hooks := [],
               invoked := [("root/1", .comp .fragComp),
                 ("root/1/@item/0", .dom "li"), ("root/1/@item/1", .dom "li")],
               patches := [(c5Parent pre post frag,
                 Val.vnode (some "ul") none
                   [("$$refId", Val.str "root"),
                    ("children", Val.arr newChildren)]
                   (some (Val.str "root")) (some "root"))] }) := by
    rfl
  refine ⟨?_, rfl, rfl⟩
  rw [hmid, hpc]
  rfl

/-- C5, witness: the concrete scenario with one li sibling on each side of a
two-node li fragment. -/
theorem C5_fragment_forced_update_witness :
    (forceUpdate false 30
        (c5St [liVn "root/0"] [liVn "root/2"]
          [liVn "root/1/@item/0", liVn "root/1/@item/1"]) "root/1" =
      .ok (c5StOut [liVn "root/0"] [liVn "root/2"]
          [liVn "root/1/@item/0", liVn "root/1/@item/1"]))
  ∧ (c5StOut [liVn "root/0"] [liVn "root/2"]
        [liVn "root/1/@item/0", liVn "root/1/@item/1"]).patches =
      [(c5Parent [liVn "root/0"] [liVn "root/2"]
          [liVn "root/1/@item/0", liVn "root/1/@item/1"],
        c5NewParent [liVn "root/0"] [liVn "root/2"])]
  ∧ (c5StOut [liVn "root/0"] [liVn "root/2"]
        [liVn "root/1/@item/0", liVn "root/1/@item/1"]).tree =
      (c5St [liVn "root/0"] [liVn "root/2"]
        [liVn "root/1/@item/0", liVn "root/1/@item/1"]).tree :=
  C5_fragment_forced_update [liVn "root/0"] [liVn "root/2"]
    [liVn "root/1/@item/0", liVn "root/1/@item/1"] (some "root/1/@item/0")
    (by rfl) (by rfl) (by rfl)

end Evs
